import Mathlib

/-!
Verification development for the template rendering and request-chaining
resolution engine of the `slumber` HTTP tool.

The embedding translates `src/template.rs` (the early-generation engine:
template strings, field and chain keys, history-backed chain resolution with
optional JSON-path extraction, and the borrowed/owned error model) and the
relevant parts of `src/cli/request.rs` (the dry-run wiring at the command
boundary).  External collaborators that live outside this repository — the
`serde_json` / `serde_json_path` crates and the `RequestHistory` store — are
modelled from the specification's boundary contracts.  The later-generation
recursion budget and `TriggerDisabled` machinery is referenced from
`src/cli/request.rs` but defined outside `src/`; it is modelled from the
specification where a claim needs it.

Rust `&str` and `String` are both embedded as Lean `String` (their character
content); `HashMap<String, String>` is embedded as an association list.
-/

deriving instance DecidableEq for Except

namespace Slumber

/-- JSON values, the model of `serde_json::Value` (an external collaborator).
Numbers are modelled as integers, which covers every behaviour the
specification exercises. -/
inductive Json where
  | null : Json
  | bool (b : Bool) : Json
  | num (n : Int) : Json
  | str (s : String) : Json
  | arr (items : List Json) : Json
  | obj (fields : List (String × Json)) : Json

/-- Escape a string for inclusion in serialized JSON (model of `serde_json`'s
string escaping, restricted to the quote and backslash characters). -/
def jsonEscape (s : String) : String :=
  s.toList.foldl
    (fun acc c =>
      if c = '"' then acc ++ "\\\""
      else if c = '\\' then acc ++ "\\\\"
      else acc ++ String.singleton c)
    ""

mutual

/-- Canonical compact serialization of a JSON value: the model of
`serde_json::Value`'s `Display` implementation (`to_string`), which the
source calls on non-string query results. -/
def Json.to_string : Json → String
  | .null => "null"
  | .bool true => "true"
  | .bool false => "false"
  | .num n => toString n
  | .str s => "\"" ++ jsonEscape s ++ "\""
  | .arr items => "[" ++ Json.items_to_string items ++ "]"
  | .obj fields => "\x7b" ++ Json.fields_to_string fields ++ "\x7d"

/-- Comma-separated serialization of array elements. -/
def Json.items_to_string : List Json → String
  | [] => ""
  | [x] => x.to_string
  | x :: xs => x.to_string ++ "," ++ Json.items_to_string xs

/-- Comma-separated serialization of object members. -/
def Json.fields_to_string : List (String × Json) → String
  | [] => ""
  | [(k, v)] => "\"" ++ jsonEscape k ++ "\":" ++ v.to_string
  | (k, v) :: rest =>
      "\"" ++ jsonEscape k ++ "\":" ++ v.to_string ++ "," ++
        Json.fields_to_string rest

end

/-- JSON whitespace characters. -/
def isJsonWs (c : Char) : Bool :=
  c = ' ' || c = '\n' || c = '\t' || c = '\r'

/-- Skip JSON whitespace. -/
def skipWs (l : List Char) : List Char := l.dropWhile isJsonWs

/-- Parse the body of a JSON string literal (after the opening quote),
handling the `\"` and `\\` escapes.  Model of `serde_json`'s string parsing,
restricted to the escapes the serializer above produces. -/
def parseJsonString : Nat → List Char → Except String (String × List Char)
  | 0, _ => .error "string recursion limit"
  | _ + 1, [] => .error "unterminated string"
  | fuel + 1, c :: rest =>
    if c = '"' then .ok ("", rest)
    else if c = '\\' then
      match rest with
      | e :: rest2 =>
        if e = '"' || e = '\\' then
          match parseJsonString fuel rest2 with
          | .ok (s, rest3) => .ok (String.singleton e ++ s, rest3)
          | .error m => .error m
        else .error "unsupported escape"
      | [] => .error "unterminated escape"
    else
      match parseJsonString fuel rest with
      | .ok (s, rest2) => .ok (String.singleton c ++ s, rest2)
      | .error m => .error m

/-- Parse an optionally-signed integer literal. -/
def parseJsonNumber (l : List Char) : Except String (Int × List Char) :=
  let (neg, l') :=
    match l with
    | '-' :: rest => (true, rest)
    | _ => (false, l)
  let digits := l'.takeWhile Char.isDigit
  let rest := l'.dropWhile Char.isDigit
  if digits.isEmpty then .error "expected digits"
  else
    let n : Nat := digits.foldl (fun acc c => acc * 10 + (c.toNat - 48)) 0
    .ok (if neg then -(n : Int) else (n : Int), rest)

mutual

/-- Parse one JSON value from the front of the input.  Model of
`serde_json::from_str`'s grammar (an external collaborator), restricted to
null, booleans, integers, strings, arrays and objects. -/
def parseJsonValue : Nat → List Char → Except String (Json × List Char)
  | 0, _ => .error "value recursion limit"
  | fuel + 1, l =>
    match skipWs l with
    | 'n' :: 'u' :: 'l' :: 'l' :: rest => .ok (.null, rest)
    | 't' :: 'r' :: 'u' :: 'e' :: rest => .ok (.bool true, rest)
    | 'f' :: 'a' :: 'l' :: 's' :: 'e' :: rest => .ok (.bool false, rest)
    | '"' :: rest =>
      match parseJsonString (fuel + 1) rest with
      | .ok (s, rest2) => .ok (.str s, rest2)
      | .error m => .error m
    | '[' :: rest =>
      (match skipWs rest with
      | ']' :: rest2 => .ok (.arr [], rest2)
      | _ =>
        match parseJsonItems fuel rest with
        | .ok (items, rest2) => .ok (.arr items, rest2)
        | .error m => .error m)
    | '{' :: rest =>
      (match skipWs rest with
      | '}' :: rest2 => .ok (.obj [], rest2)
      | _ =>
        match parseJsonFields fuel rest with
        | .ok (fields, rest2) => .ok (.obj fields, rest2)
        | .error m => .error m)
    | l' =>
      match parseJsonNumber l' with
      | .ok (n, rest) => .ok (.num n, rest)
      | .error m => .error m

/-- Parse a non-empty comma-separated list of array elements and the closing
bracket. -/
def parseJsonItems : Nat → List Char → Except String (List Json × List Char)
  | 0, _ => .error "items recursion limit"
  | fuel + 1, l =>
    match parseJsonValue fuel l with
    | .error m => .error m
    | .ok (v, rest) =>
      match skipWs rest with
      | ',' :: rest2 =>
        (match parseJsonItems fuel rest2 with
        | .ok (items, rest3) => .ok (v :: items, rest3)
        | .error m => .error m)
      | ']' :: rest2 => .ok ([v], rest2)
      | _ => .error "expected comma or closing bracket"

/-- Parse a non-empty comma-separated list of object members and the closing
brace. -/
def parseJsonFields :
    Nat → List Char → Except String (List (String × Json) × List Char)
  | 0, _ => .error "fields recursion limit"
  | fuel + 1, l =>
    match skipWs l with
    | '"' :: rest =>
      (match parseJsonString (fuel + 1) rest with
      | .error m => .error m
      | .ok (k, rest2) =>
        match skipWs rest2 with
        | ':' :: rest3 =>
          (match parseJsonValue fuel rest3 with
          | .error m => .error m
          | .ok (v, rest4) =>
            match skipWs rest4 with
            | ',' :: rest5 =>
              (match parseJsonFields fuel rest5 with
              | .ok (fields, rest6) => .ok ((k, v) :: fields, rest6)
              | .error m => .error m)
            | '}' :: rest5 => .ok ([(k, v)], rest5)
            | _ => .error "expected comma or closing brace")
        | _ => .error "expected colon")
    | _ => .error "expected member key"

end

/-- Parse a complete JSON document: the model of `serde_json::from_str`
(an external collaborator).  The whole input must be consumed. -/
def Json.parse (s : String) : Except String Json :=
  match parseJsonValue (s.length + 1) s.toList with
  | .error m => .error m
  | .ok (v, rest) =>
    if (skipWs rest).isEmpty then .ok v else .error "trailing characters"

/-- One segment of a JSON path: a named child selector or a wildcard. -/
inductive PathSeg where
  | name (s : String) : PathSeg
  | wildcard : PathSeg
deriving DecidableEq

/-- A parsed JSON path: the model of `serde_json_path::JsonPath`
(an external collaborator), restricted to the root symbol followed by child
and wildcard segments — the fragment the specification exercises. -/
structure JsonPath where
  segments : List PathSeg
deriving DecidableEq

/-- Characters allowed in a path member name. -/
def isPathNameChar (c : Char) : Bool :=
  c.isAlphanum || c = '_' || c = '-'

/-- Parse the segments following the root symbol. -/
def parsePathSegs : Nat → List Char → Except String (List PathSeg)
  | 0, _ => .error "path recursion limit"
  | _ + 1, [] => .ok []
  | fuel + 1, '.' :: rest =>
    (match rest with
    | '*' :: rest2 =>
      (match parsePathSegs fuel rest2 with
      | .ok segs => .ok (.wildcard :: segs)
      | .error m => .error m)
    | _ =>
      let nm := rest.takeWhile isPathNameChar
      if nm.isEmpty then .error "expected member name after dot"
      else
        match parsePathSegs fuel (rest.dropWhile isPathNameChar) with
        | .ok segs => .ok (PathSeg.name (String.mk nm) :: segs)
        | .error m => .error m)
  | _ + 1, _ => .error "expected dot"

/-- Parse a JSON path expression: the model of `JsonPath::parse` from the
external `serde_json_path` crate.  The expression must start with `$`;
`$.` with no member name and any other ill-formed shape is a parse error. -/
def JsonPath.parse (s : String) : Except String JsonPath :=
  match s.toList with
  | '$' :: rest =>
    (match parsePathSegs (s.length + 1) rest with
    | .ok segs => .ok ⟨segs⟩
    | .error m => .error m)
  | _ => .error "path must start with root symbol"

/-- Nodes selected by one path segment from one JSON value. -/
def PathSeg.select : PathSeg → Json → List Json
  | .name k, .obj fields => (fields.lookup k).toList
  | .name _, _ => []
  | .wildcard, .obj fields => fields.map (·.2)
  | .wildcard, .arr items => items
  | .wildcard, _ => []

/-- Query a JSON value with a path, producing the node list: the model of
`JsonPath::query` from the external `serde_json_path` crate. -/
def JsonPath.query (p : JsonPath) (v : Json) : List Json :=
  p.segments.foldl (fun nodes seg => nodes.flatMap seg.select) [v]

/-- Error produced when a node list does not hold exactly one node: the model
of `serde_json_path::ExactlyOneError`. -/
inductive ExactlyOneError where
  | empty : ExactlyOneError
  | moreThanOne (count : Nat) : ExactlyOneError
deriving DecidableEq

/-- Require exactly one node from a query result: the model of
`NodeList::exactly_one` from the external `serde_json_path` crate. -/
def exactlyOne : List Json → Except ExactlyOneError Json
  | [] => .error .empty
  | [v] => .ok v
  | vs => .error (.moreThanOne vs.length)

/-- A chain definition (`config::Chain`): an id, a source recipe id, and an
optional JSON path expression. -/
structure Chain where
  id : String
  source : String
  path : Option String
deriving DecidableEq

/-- Modelled from the spec: the persisted History store (`history.rs` is not
under `src/`; `src/template.rs` only calls it).  A store holds the recorded
request outcomes, most recent first — a success carries the response content,
a failure carries none — plus an optional database-access failure used to
model `get_last_success` returning an error. -/
structure RequestHistory where
  dbError : Option String := none
  records : List (String × Option String) := []

/-- Modelled from the spec: `RequestHistory::get_last_success` reads the most
recent successful response recorded for the given source recipe id; a recipe
with no recorded success (no record at all, or only failures) yields none. -/
def RequestHistory.get_last_success (h : RequestHistory) (recipe_id : String) :
    Except String (Option String) :=
  match h.dbError with
  | some e => .error e
  | none =>
    .ok (h.records.findSome? fun r => if r.1 = recipe_id then r.2 else none)

/-- The per-render data bundle `TemplateContext` from `src/template.rs`:
an optional profile/environment mapping, the chain list, the history handle,
and an optional override mapping. -/
structure TemplateContext where
  environment : Option (List (String × String))
  chains : List Chain
  history : RequestHistory
  overrides : Option (List (String × String))

/-- The template error taxonomy from `src/template.rs`, generic over the
string storage `S` (borrowed `&str` and owned `String` are both embedded as
Lean `String`).  The payload of the external library errors is embedded as
the message string for `ChainJsonPath` / `ChainJsonResponse` / `History` and
as `ExactlyOneError` for `ChainInvalidResult`. -/
inductive TemplateError (S : Type) where
  | InvalidKey (key : S) : TemplateError S
  | FieldUnknown (field : S) : TemplateError S
  | ChainUnknown (chain_id : S) : TemplateError S
  | ChainNoResponse (chain_id : S) : TemplateError S
  | ChainJsonPath (chain_id : S) (path : S) (error : String) : TemplateError S
  | ChainJsonResponse (chain_id : S) (error : String) : TemplateError S
  | ChainInvalidResult (chain_id : S) (error : ExactlyOneError) :
      TemplateError S
  | History (error : String) : TemplateError S
deriving DecidableEq

/-- A parsed template key from `src/template.rs`: a plain field or a chained
value. -/
inductive TemplateKey where
  | Field (field : String) : TemplateKey
  | Chain (chain_id : String) : TemplateKey
deriving DecidableEq

/-- Split a character list at every occurrence of a separator character:
the model of Rust's `str::split` with a `char` pattern.  Splitting the empty
input yields one empty segment, and a trailing separator yields a trailing
empty segment, exactly as in Rust. -/
def splitChar (sep : Char) : List Char → List (List Char)
  | [] => [[]]
  | c :: rest =>
    let r := splitChar sep rest
    if c = sep then [] :: r
    else
      match r with
      | seg :: segs => (c :: seg) :: segs
      | [] => [[c]]

/-- The segments of a raw key string split on `.`, as strings: the
`s.split` call inside `TemplateKey::parse`. -/
def splitDot (s : String) : List String :=
  (splitChar '.' s.toList).map String.mk

/-- Embedding of `TemplateKey::parse` from `src/template.rs`: split the raw key text on
dots and classify the resulting segment list. -/
def TemplateKey.parse (s : String) :
    Except (TemplateError String) TemplateKey :=
  match splitDot s with
  | [key] => .ok (.Field key)
  | ["chains", chain_id] => .ok (.Chain chain_id)
  | _ => .error (.InvalidKey s)

/-- The local helper `get_opt` inside `TemplateContext::get`: look a key up
in an optional mapping. -/
def get_opt (map : Option (List (String × String))) (key : String) :
    Option String :=
  map.bind fun m => m.lookup key

/-- Embedding of `TemplateContext::get_chain` from `src/template.rs`: resolve a chained
value — find the chain by id, read the last successful response of its source
recipe from history, then optionally extract a value via JSON path. -/
def TemplateContext.get_chain (ctx : TemplateContext) (chain_id : String) :
    Except (TemplateError String) String :=
  match ctx.chains.find? (fun chain => chain.id = chain_id) with
  | none => .error (.ChainUnknown chain_id)
  | some chain =>
    match ctx.history.get_last_success chain.source with
    | .error e => .error (.History e)
    | .ok none => .error (.ChainNoResponse chain_id)
    | .ok (some response) =>
      match chain.path with
      | some path =>
        (match JsonPath.parse path with
        | .error err => .error (.ChainJsonPath chain_id path err)
        | .ok p =>
          match Json.parse response with
          | .error err => .error (.ChainJsonResponse chain_id err)
          | .ok response_value =>
            match exactlyOne (p.query response_value) with
            | .error err => .error (.ChainInvalidResult chain_id err)
            | .ok found_value =>
              match found_value with
              | .str s => .ok s
              | other => .ok other.to_string)
      | none => .ok response

/-- Embedding of `TemplateContext::get` from `src/template.rs`: resolve a key — a plain
field cascades through overrides then the environment, a chain key delegates
to `get_chain`. -/
def TemplateContext.get (ctx : TemplateContext) :
    TemplateKey → Except (TemplateError String) String
  | .Field field =>
    match get_opt ctx.overrides field with
    | some v => .ok v
    | none =>
      match get_opt ctx.environment field with
      | some v => .ok v
      | none => .error (.FieldUnknown field)
  | .Chain chain_id => ctx.get_chain chain_id

/-- Embedding of `TemplateError::into_owned` from `src/template.rs`: convert a borrowed
error into an owned one by cloning every string (both are embedded as Lean
`String`, so Rust's `to_owned` is content-preserving). -/
def TemplateError.into_owned :
    TemplateError String → TemplateError String
  | .InvalidKey key => .InvalidKey key
  | .FieldUnknown field => .FieldUnknown field
  | .ChainUnknown chain_id => .ChainUnknown chain_id
  | .ChainNoResponse chain_id => .ChainNoResponse chain_id
  | .ChainJsonPath chain_id path error => .ChainJsonPath chain_id path error
  | .ChainJsonResponse chain_id error => .ChainJsonResponse chain_id error
  | .ChainInvalidResult chain_id error =>
      .ChainInvalidResult chain_id error
  | .History err => .History err

/-- Characters of the key capture class `[\w\d._-]` in the template pattern
of `src/template.rs` (the word class modelled at ASCII). -/
def isKeyChar (c : Char) : Bool :=
  c.isAlphanum || c = '_' || c = '.' || c = '-'

/-- Try to match the template pattern `\x7b\x7b\s*([\w\d._-]+)\s*\x7d\x7d`
at the front of the input.  On a match, return the captured raw key and the
input remaining after the match.  The character classes involved are disjoint,
so this greedy scan is exactly the regex's leftmost match at this position. -/
def tryPlaceholder : List Char → Option (String × List Char)
  | c1 :: c2 :: rest =>
    if c1 = '{' ∧ c2 = '{' then
      if ((rest.dropWhile Char.isWhitespace).takeWhile isKeyChar).isEmpty then
        none
      else
        match
          ((rest.dropWhile Char.isWhitespace).dropWhile
              isKeyChar).dropWhile Char.isWhitespace with
        | d1 :: d2 :: rest2 =>
          if d1 = '}' ∧ d2 = '}' then
            some
              (String.mk
                ((rest.dropWhile Char.isWhitespace).takeWhile isKeyChar),
                rest2)
          else none
        | _ => none
    else none
  | _ => none

/-- Resolve one raw placeholder key against a context: parse the key, then
get its value — the per-match body of the loop in
`TemplateString::render_borrow`. -/
def resolveKey (ctx : TemplateContext) (raw : String) :
    Except (TemplateError String) String :=
  match TemplateKey.parse raw with
  | .error e => .error e
  | .ok key => ctx.get key

/-- Fuel-indexed renderer: scan left to right; at each position, if the
template pattern matches, resolve the captured key and splice its value in,
failing on the first error; otherwise emit one literal character.  This is
the `captures_iter` loop of `TemplateString::render_borrow`. -/
def renderFuel (ctx : TemplateContext) :
    Nat → List Char → Except (TemplateError String) String
  | 0, _ => .ok ""
  | fuel + 1, l =>
    match tryPlaceholder l with
    | some (key, rest) =>
      (match resolveKey ctx key with
      | .error e => .error e
      | .ok v =>
        match renderFuel ctx fuel rest with
        | .error e => .error e
        | .ok tail => .ok (v ++ tail))
    | none =>
      match l with
      | [] => .ok ""
      | c :: rest =>
        match renderFuel ctx fuel rest with
        | .error e => .error e
        | .ok tail => .ok (String.singleton c ++ tail)

/-- The raw keys of the placeholders matched in the input, in scan order. -/
def keysOfFuel : Nat → List Char → List String
  | 0, _ => []
  | fuel + 1, l =>
    match tryPlaceholder l with
    | some (key, rest) => key :: keysOfFuel fuel rest
    | none =>
      match l with
      | [] => []
      | _ :: rest => keysOfFuel fuel rest

/-- Embedding of `TemplateString::render_borrow` from `src/template.rs`, with the input
string as the `TemplateString`. -/
def render_borrow (ctx : TemplateContext) (s : String) :
    Except (TemplateError String) String :=
  renderFuel ctx s.toList.length s.toList

/-- The raw placeholder keys of a template string, in left-to-right order. -/
def keysOf (s : String) : List String :=
  keysOfFuel s.toList.length s.toList

/-- The first resolution error among a key list, scanning left to right. -/
def firstKeyError (ctx : TemplateContext) (keys : List String) :
    Option (TemplateError String) :=
  keys.findSome? fun k =>
    match resolveKey ctx k with
    | .error e => some e
    | .ok _ => none

/-- The precedence example context of the specification: profile
`user_id = 1, group_id = 3`, override `user_id = 2`. -/
def profileCtx : TemplateContext :=
  { environment := some [("user_id", "1"), ("group_id", "3")],
    chains := [],
    history := {},
    overrides := some [("user_id", "2")] }

/-- A chain extracting `$.number` from the response of `recipe1`. -/
def numberChain : Chain :=
  { id := "chain1", source := "recipe1", path := some "$.number" }

/-- History holding one success for `recipe1` with a numeric member. -/
def numberHistory : RequestHistory :=
  { records := [("recipe1", some "\x7b\"number\":6\x7d")] }

/-- Context for the `$.number` extraction example. -/
def numberCtx : TemplateContext :=
  { environment := none, chains := [numberChain],
    history := numberHistory, overrides := none }

/-- A chain extracting `$.object` from the response of `recipe1`. -/
def objectChain : Chain :=
  { id := "chain1", source := "recipe1", path := some "$.object" }

/-- History holding one success for `recipe1` with an object member. -/
def objectHistory : RequestHistory :=
  { records := [("recipe1", some "\x7b\"object\":\x7b\"a\":1\x7d\x7d")] }

/-- Context for the `$.object` extraction example. -/
def objectCtx : TemplateContext :=
  { environment := none, chains := [objectChain],
    history := objectHistory, overrides := none }

/-- A chain with no extraction path pointing at `recipe1`. -/
def plainChain : Chain :=
  { id := "chain1", source := "recipe1", path := none }

/-- History whose only record for `recipe1` is a failure. -/
def failOnlyHistory : RequestHistory :=
  { records := [("recipe1", none)] }

/-- Context whose chain points at a recipe with a failure-only history. -/
def failOnlyCtx : TemplateContext :=
  { environment := none, chains := [plainChain],
    history := failOnlyHistory, overrides := none }

/-- A chain carrying the malformed path expression of the source tests. -/
def badPathChain : Chain :=
  { id := "chain1", source := "recipe1", path := some "$." }

/-- Context with a malformed-path chain over a failure-only history. -/
def badPathCtx : TemplateContext :=
  { environment := none, chains := [badPathChain],
    history := failOnlyHistory, overrides := none }

/-- Modelled from the spec: outcome of a budgeted render of one recipe in the
later-generation Request Builder (§4.5, §4.6), whose code is referenced by
`src/cli/request.rs` but is not under `src/`. -/
inductive RenderOutcome where
  | success : RenderOutcome
  | recursionLimitExceeded : RenderOutcome
deriving DecidableEq

/-- Modelled from the spec: the later-generation Request Builder with a
Recursion Budget (§4.5–§4.6, not under `src/`): `deps` maps a recipe id to
the recipe its chain triggers, if any.  Rendering a recipe with no trigger
succeeds; a trigger attempted with budget 0 fails immediately with the
recursion-limit outcome; otherwise the nested render runs with budget − 1.
The second component counts the chain triggers performed. -/
def buildWithBudget (deps : List (String × String)) :
    Nat → String → RenderOutcome × Nat
  | 0, recipe =>
    (match deps.lookup recipe with
    | none => (.success, 0)
    | some _ => (.recursionLimitExceeded, 0))
  | budget + 1, recipe =>
    match deps.lookup recipe with
    | none => (.success, 0)
    | some next =>
      let r := buildWithBudget deps budget next
      (r.1, r.2 + 1)

/-- The two-recipe cycle of the specification: recipe `A`'s chain triggers
recipe `B`, whose chain triggers recipe `A`. -/
def cycleDeps : List (String × String) := [("A", "B"), ("B", "A")]

/-- Modelled from the spec: the later-generation template error taxonomy
fragment needed at the command boundary (`TriggerDisabled` and the
`ChainNoResponse` class it must stay distinct from; not under `src/`). -/
inductive TemplateErrorV2 where
  | TriggerDisabled : TemplateErrorV2
  | ChainNoResponse (chain_id : String) : TemplateErrorV2
  | Other (message : String) : TemplateErrorV2
deriving DecidableEq

/-- Model of an `anyhow` error (external collaborator): a root cause wrapped
in a stack of context messages, outermost first. -/
structure AnyhowError where
  contexts : List String := []
  root : TemplateErrorV2
deriving DecidableEq

/-- Model of `anyhow`'s `Error::context`: push a context message. -/
def AnyhowError.context (e : AnyhowError) (msg : String) : AnyhowError :=
  { contexts := msg :: e.contexts, root := e.root }

/-- Modelled from the spec: `TemplateError::has_trigger_disabled_error`
(later-generation `template.rs`, not under `src/`) reports whether the error
chain bottoms out in the `TriggerDisabled` variant. -/
def has_trigger_disabled_error (e : AnyhowError) : Bool :=
  match e.root with
  | .TriggerDisabled => true
  | _ => false

/-- Embedding of `src/cli/request.rs` lines 163–168: the HTTP engine handle placed into
the template context is present exactly when `trigger_dependencies` is
enabled (the engine itself is external, embedded as `Unit`). -/
def build_request_http_engine (trigger_dependencies : Bool) : Option Unit :=
  if trigger_dependencies then some () else none

/-- Embedding of `src/cli/request.rs` line 87: `RequestCommand::execute` builds with
`trigger_dependencies = !dry_run`. -/
def execute_trigger_dependencies (dry_run : Bool) : Bool := !dry_run

/-- Modelled from the spec: the chain-source decision of §4.4 step 3 in the
later-generation Chain Resolver (not under `src/`).  When the policy requires
a trigger but the context has no transport handle, fail with
`TriggerDisabled`; with a handle, a failed send manifests as the
no-response outcome; in non-triggering mode, read the last success. -/
def resolveChainSource (chain_id : String) (http_engine : Option Unit)
    (requires_trigger : Bool) (send_outcome : Option String)
    (last_success : Option String) : Except TemplateErrorV2 String :=
  if requires_trigger then
    match http_engine with
    | none => .error .TriggerDisabled
    | some _ =>
      match send_outcome with
      | some body => .ok body
      | none => .error (.ChainNoResponse chain_id)
  else
    match last_success with
    | some body => .ok body
    | none => .error (.ChainNoResponse chain_id)

/-- Embedding of `src/cli/request.rs` lines 88–99: the error mapping applied by
`RequestCommand::execute` to a failed build — exactly a build failure whose
chain holds `TriggerDisabled` is wrapped with the actionable message. -/
def map_build_error (error : AnyhowError) : AnyhowError :=
  if has_trigger_disabled_error error then
    error.context "Triggered requests are disabled with `--dry-run`"
  else error

/-- A context with no environment, no overrides, no chains and no history. -/
def emptyCtx : TemplateContext :=
  { environment := none, chains := [], history := {}, overrides := none }

/-- C9: the borrowed-to-owned error conversion is total (defined on every
variant) and lossless — with borrowed `&str` and owned `String` both embedded
as their character content, `into_owned` maps every variant to the
corresponding variant with identical key, field, chain id and path strings
and the attached source error unchanged. -/
theorem into_owned_lossless :
    ∀ e : TemplateError String, e.into_owned = e := by
  intro e
  cases e <;> rfl

/-- C2: key parsing splits the raw text on dots — one segment is a `Field`
of that segment, two segments headed by the literal `chains` are a `Chain`
of the second segment (an empty second segment included: `chains.` parses to
`Chain` of the empty id, which matches no chain with a non-empty id), and
every other shape is an `InvalidKey` error naming the whole raw text. -/
theorem template_key_classification :
    (∀ s k, splitDot s = [k] →
      TemplateKey.parse s = .ok (.Field k)) ∧
    (∀ s cid, splitDot s = ["chains", cid] →
      TemplateKey.parse s = .ok (.Chain cid)) ∧
    (∀ s, (∀ k, splitDot s ≠ [k]) →
      (∀ cid, splitDot s ≠ ["chains", cid]) →
      TemplateKey.parse s = .error (.InvalidKey s)) ∧
    TemplateKey.parse "chains." = .ok (.Chain "") ∧
    (∀ ctx : TemplateContext, (∀ c ∈ ctx.chains, ¬ c.id = "") →
      ctx.get_chain "" = .error (.ChainUnknown "")) := by
  refine ⟨?_, ?_, ?_, ?_, ?_⟩
  · intro s k h
    unfold TemplateKey.parse
    rw [h]
    split <;> simp_all
  · intro s cid h
    unfold TemplateKey.parse
    rw [h]
    split <;> simp_all
  · intro s h1 h2
    unfold TemplateKey.parse
    rcases hsp : splitDot s with _ | ⟨a, _ | ⟨b, _ | ⟨c, t⟩⟩⟩
    · rfl
    · exact absurd hsp (h1 a)
    · by_cases hc : a = "chains"
      · subst hc
        exact absurd hsp (h2 b)
      · split
        · rename_i key hkey
          exact absurd hkey (by simp)
        · rename_i cid hcid
          exact absurd hcid (by simp [hc])
        · rfl
    · split <;> simp_all
  · rfl
  · intro ctx h
    unfold TemplateContext.get_chain
    have hfind : ctx.chains.find? (fun chain => chain.id = "") = none := by
      rw [List.find?_eq_none]
      intro c hc
      simpa using h c hc
    rw [hfind]

/-- C3: field resolution checks the override mapping first and the
profile/environment mapping second, the first hit wins, and a name present
in neither fails with `FieldUnknown`; with the specification's profile and
override the template renders to `2 3`. -/
theorem field_resolution_precedence :
    (∀ (ctx : TemplateContext) (field v : String),
      get_opt ctx.overrides field = some v →
      ctx.get (.Field field) = .ok v) ∧
    (∀ (ctx : TemplateContext) (field v : String),
      get_opt ctx.overrides field = none →
      get_opt ctx.environment field = some v →
      ctx.get (.Field field) = .ok v) ∧
    (∀ (ctx : TemplateContext) (field : String),
      get_opt ctx.overrides field = none →
      get_opt ctx.environment field = none →
      ctx.get (.Field field) = .error (.FieldUnknown field)) ∧
    render_borrow profileCtx "\x7b\x7buser_id\x7d\x7d \x7b\x7bgroup_id\x7d\x7d"
      = .ok "2 3" := by
  refine ⟨?_, ?_, ?_, ?_⟩
  · intro ctx f v h
    simp only [TemplateContext.get]
    rw [h]
  · intro ctx f v h1 h2
    simp only [TemplateContext.get]
    rw [h1, h2]
  · intro ctx f h1 h2
    simp only [TemplateContext.get]
    rw [h1, h2]
  · decide

/-- Witness for C3: in the example context, the override wins for `user_id`
and the profile supplies `group_id`. -/
theorem field_resolution_precedence_witness :
    profileCtx.get (.Field "user_id") = .ok "2" ∧
    profileCtx.get (.Field "group_id") = .ok "3" :=
  ⟨field_resolution_precedence.1 profileCtx "user_id" "2" (by decide),
   field_resolution_precedence.2.1 profileCtx "group_id" "3" (by decide)
     (by decide)⟩

/-- Witness for C2: the grammar examples of the specification. -/
theorem template_key_classification_witness :
    TemplateKey.parse "field_id" = .ok (.Field "field_id") ∧
    TemplateKey.parse "chains.chain_id" = .ok (.Chain "chain_id") ∧
    TemplateKey.parse "chains.good.bad"
      = .error (.InvalidKey "chains.good.bad") := by
  refine ⟨?_, ?_, ?_⟩
  · exact template_key_classification.1 "field_id" "field_id" (by decide)
  · exact template_key_classification.2.1 "chains.chain_id" "chain_id"
      (by decide)
  · have hsp : splitDot "chains.good.bad" = ["chains", "good", "bad"] := by
      decide
    refine template_key_classification.2.2.1 "chains.good.bad" ?_ ?_
    · intro k hk
      rw [hsp] at hk
      exact absurd hk (by simp)
    · intro cid hcid
      rw [hsp] at hcid
      exact absurd hcid (by simp)

/-- C5: a chain id matching no chain in the context fails with
`ChainUnknown` carrying that id; a chain whose source recipe has no
successful response in history fails with `ChainNoResponse` carrying the
chain id; and the history store yields no success both when every record
for the recipe is a failure and when the recipe id has no record at all. -/
theorem chain_lookup_errors :
    (∀ (ctx : TemplateContext) (cid : String),
      (∀ c ∈ ctx.chains, ¬ c.id = cid) →
      ctx.get_chain cid = .error (.ChainUnknown cid)) ∧
    (∀ (ctx : TemplateContext) (cid : String) (chain : Chain),
      ctx.chains.find? (fun c => c.id = cid) = some chain →
      ctx.history.get_last_success chain.source = .ok none →
      ctx.get_chain cid = .error (.ChainNoResponse cid)) ∧
    (∀ (h : RequestHistory) (rid : String),
      h.dbError = none →
      (∀ p ∈ h.records, p.1 = rid → p.2 = none) →
      h.get_last_success rid = .ok none) := by
  refine ⟨?_, ?_, ?_⟩
  · intro ctx cid h
    unfold TemplateContext.get_chain
    have hfind : ctx.chains.find? (fun chain => chain.id = cid) = none := by
      rw [List.find?_eq_none]
      intro c hc
      simpa using h c hc
    rw [hfind]
  · intro ctx cid chain hfind hresp
    unfold TemplateContext.get_chain
    simp only [hfind, hresp]
  · intro h rid hdb hall
    unfold RequestHistory.get_last_success
    simp only [hdb]
    have hnone : (h.records.findSome? fun r =>
        if r.1 = rid then r.2 else none) = none := by
      rw [List.findSome?_eq_none_iff]
      intro p hp
      by_cases hr : p.1 = rid
      · simp [hr, hall p hp hr]
      · simp [hr]
    rw [hnone]

/-- Witness for C5: a context with no matching chain fails with
`ChainUnknown`, and a chain whose recipe has only a failed outcome recorded
fails with `ChainNoResponse`. -/
theorem chain_lookup_errors_witness :
    emptyCtx.get_chain "chain1" = .error (.ChainUnknown "chain1") ∧
    failOnlyCtx.get_chain "chain1" = .error (.ChainNoResponse "chain1") := by
  constructor
  · exact chain_lookup_errors.1 emptyCtx "chain1" (by simp [emptyCtx])
  · exact chain_lookup_errors.2.1 failOnlyCtx "chain1" plainChain
      (by decide)
      (chain_lookup_errors.2.2 failOnlyCtx.history "recipe1" (by decide)
        (by decide))

/-- C10: when a chain both carries a malformed JSON-path expression and has
no successful response in history, resolution reports `ChainNoResponse`, not
`ChainJsonPath` — the history lookup happens before the path expression is
parsed, and the two errors are distinct. -/
theorem no_response_precedes_path_parse :
    (∀ (ctx : TemplateContext) (cid : String) (chain : Chain)
        (pstr perr : String),
      ctx.chains.find? (fun c => c.id = cid) = some chain →
      chain.path = some pstr →
      JsonPath.parse pstr = .error perr →
      ctx.history.get_last_success chain.source = .ok none →
      ctx.get_chain cid = .error (.ChainNoResponse cid)) ∧
    (∀ cid pstr perr,
      (TemplateError.ChainNoResponse cid : TemplateError String)
        ≠ .ChainJsonPath cid pstr perr) := by
  constructor
  · intro ctx cid chain pstr perr hfind hpath hparse hresp
    unfold TemplateContext.get_chain
    simp only [hfind, hresp]
  · intro cid pstr perr h
    exact TemplateError.noConfusion h

/-- Witness for C10: the malformed path `$.` with a failure-only history
still reports `ChainNoResponse`. -/
theorem no_response_precedes_path_parse_witness :
    badPathCtx.get_chain "chain1" = .error (.ChainNoResponse "chain1") :=
  no_response_precedes_path_parse.1 badPathCtx "chain1" badPathChain
    "$." "expected member name after dot" (by decide) (by decide) (by decide)
    (by decide)

/-- C1: with the chain found and a response body obtained, resolution with no
path returns the whole body; with a path, a malformed expression fails with
`ChainJsonPath`, a non-JSON body fails with `ChainJsonResponse`, a query not
matching exactly one node fails with `ChainInvalidResult`, a matched JSON
string substitutes as its literal unquoted text, and every other matched
value substitutes as its canonical compact JSON text. -/
theorem chain_extraction_behaviour :
    ∀ (ctx : TemplateContext) (cid : String) (chain : Chain) (resp : String),
      ctx.chains.find? (fun c => c.id = cid) = some chain →
      ctx.history.get_last_success chain.source = .ok (some resp) →
      ((chain.path = none → ctx.get_chain cid = .ok resp) ∧
       (∀ pstr perr, chain.path = some pstr →
         JsonPath.parse pstr = .error perr →
         ctx.get_chain cid = .error (.ChainJsonPath cid pstr perr)) ∧
       (∀ pstr p jerr, chain.path = some pstr →
         JsonPath.parse pstr = .ok p →
         Json.parse resp = .error jerr →
         ctx.get_chain cid = .error (.ChainJsonResponse cid jerr)) ∧
       (∀ pstr p v eerr, chain.path = some pstr →
         JsonPath.parse pstr = .ok p →
         Json.parse resp = .ok v →
         exactlyOne (p.query v) = .error eerr →
         ctx.get_chain cid = .error (.ChainInvalidResult cid eerr)) ∧
       (∀ pstr p v s, chain.path = some pstr →
         JsonPath.parse pstr = .ok p →
         Json.parse resp = .ok v →
         exactlyOne (p.query v) = .ok (.str s) →
         ctx.get_chain cid = .ok s) ∧
       (∀ pstr p v w, chain.path = some pstr →
         JsonPath.parse pstr = .ok p →
         Json.parse resp = .ok v →
         exactlyOne (p.query v) = .ok w →
         (∀ s, w ≠ .str s) →
         ctx.get_chain cid = .ok w.to_string)) := by
  intro ctx cid chain resp hfind hresp
  refine ⟨?_, ?_, ?_, ?_, ?_, ?_⟩
  · intro hpath
    unfold TemplateContext.get_chain
    simp only [hfind, hresp, hpath]
  · intro pstr perr hpath hparse
    unfold TemplateContext.get_chain
    simp only [hfind, hresp, hpath, hparse]
  · intro pstr p jerr hpath hparse hjson
    unfold TemplateContext.get_chain
    simp only [hfind, hresp, hpath, hparse, hjson]
  · intro pstr p v eerr hpath hparse hjson hone
    unfold TemplateContext.get_chain
    simp only [hfind, hresp, hpath, hparse, hjson, hone]
  · intro pstr p v s hpath hparse hjson hone
    unfold TemplateContext.get_chain
    simp only [hfind, hresp, hpath, hparse, hjson, hone]
  · intro pstr p v w hpath hparse hjson hone hne
    unfold TemplateContext.get_chain
    cases w with
    | str s => exact absurd rfl (hne s)
    | null => simp only [hfind, hresp, hpath, hparse, hjson, hone]
    | bool b => simp only [hfind, hresp, hpath, hparse, hjson, hone]
    | num n => simp only [hfind, hresp, hpath, hparse, hjson, hone]
    | arr items => simp only [hfind, hresp, hpath, hparse, hjson, hone]
    | obj fields => simp only [hfind, hresp, hpath, hparse, hjson, hone]

/-- Witness for C1: path `$.number` on body with `number` 6 yields `6`, and
path `$.object` on a body with a nested object yields its compact JSON. -/
theorem chain_extraction_behaviour_witness :
    numberCtx.get_chain "chain1" = .ok "6" ∧
    objectCtx.get_chain "chain1" = .ok "\x7b\"a\":1\x7d" := by
  constructor
  · exact (chain_extraction_behaviour numberCtx "chain1" numberChain
      "\x7b\"number\":6\x7d" (by decide) (by decide)).2.2.2.2.2 "$.number"
      ⟨[.name "number"]⟩ (Json.obj [("number", .num 6)]) (.num 6) rfl rfl rfl
      rfl (fun s h => Json.noConfusion h)
  · exact (chain_extraction_behaviour objectCtx "chain1" objectChain
      "\x7b\"object\":\x7b\"a\":1\x7d\x7d" (by decide) (by decide)).2.2.2.2.2
      "$.object" ⟨[.name "object"]⟩
      (Json.obj [("object", Json.obj [("a", .num 1)])])
      (Json.obj [("a", .num 1)]) rfl rfl rfl rfl
      (fun s h => Json.noConfusion h)

/-- Helper for C6: on the two-recipe cycle, every budget is exhausted — the
render from either recipe ends in the recursion-limit outcome after exactly
`budget` triggers. -/
theorem cycle_build_eq (b : Nat) :
    buildWithBudget cycleDeps b "A" = (.recursionLimitExceeded, b) ∧
    buildWithBudget cycleDeps b "B" = (.recursionLimitExceeded, b) := by
  induction b with
  | zero => exact ⟨rfl, rfl⟩
  | succ n ih =>
    constructor
    · have hl : cycleDeps.lookup "A" = some "B" := rfl
      simp only [buildWithBudget, hl, ih.2]
    · have hl : cycleDeps.lookup "B" = some "A" := rfl
      simp only [buildWithBudget, hl, ih.1]

/-- Helper for C6: a budgeted render never performs more triggers than its
budget. -/
theorem build_trigger_count_le (deps : List (String × String)) :
    ∀ (b : Nat) (r : String), (buildWithBudget deps b r).2 ≤ b := by
  intro b
  induction b with
  | zero =>
    intro r
    simp only [buildWithBudget]
    split <;> simp
  | succ n ih =>
    intro r
    simp only [buildWithBudget]
    split
    · simp
    · rename_i next hl
      simpa using Nat.succ_le_succ (ih next)

/-- C6: rendering the two-recipe cycle terminates with the recursion-limit
outcome after exactly `budget` nested triggers (so within a small bound),
the trigger count never exceeds the budget, and a trigger attempted with
budget already 0 fails immediately with zero triggers performed. -/
theorem cycle_recursion_limit :
    (∀ budget, buildWithBudget cycleDeps budget "A"
      = (.recursionLimitExceeded, budget)) ∧
    (∀ (deps : List (String × String)) (budget : Nat) (r : String),
      (buildWithBudget deps budget r).2 ≤ budget) ∧
    (∀ (deps : List (String × String)) (r next : String),
      deps.lookup r = some next →
      buildWithBudget deps 0 r = (.recursionLimitExceeded, 0)) := by
  refine ⟨fun b => (cycle_build_eq b).1,
    fun deps b r => build_trigger_count_le deps b r, ?_⟩
  intro deps r next h
  simp only [buildWithBudget, h]

/-- Witness for C6: with budget 3 the cycle stops after 3 triggers, and with
budget 0 the trigger on `A` fails immediately. -/
theorem cycle_recursion_limit_witness :
    buildWithBudget cycleDeps 3 "A" = (.recursionLimitExceeded, 3) ∧
    buildWithBudget cycleDeps 0 "A" = (.recursionLimitExceeded, 0) :=
  ⟨cycle_recursion_limit.1 3,
   cycle_recursion_limit.2.2 cycleDeps "A" "B" (by decide)⟩

/-- C7: with dry-run in force the build context carries no HTTP engine, so a
chain whose policy requires a trigger fails with `TriggerDisabled`, an error
distinct from every `ChainNoResponse`; and the command boundary rewrites
exactly the errors that hold `TriggerDisabled` with the actionable message,
leaving every other error unchanged. -/
theorem trigger_disabled_policy :
    (∀ (cid : String) (send last : Option String),
      resolveChainSource cid
        (build_request_http_engine (execute_trigger_dependencies true))
        true send last = .error .TriggerDisabled) ∧
    (∀ cid, TemplateErrorV2.TriggerDisabled ≠ .ChainNoResponse cid) ∧
    (∀ e, has_trigger_disabled_error e = true →
      map_build_error e
        = e.context "Triggered requests are disabled with `--dry-run`") ∧
    (∀ e, has_trigger_disabled_error e = false → map_build_error e = e) := by
  refine ⟨?_, ?_, ?_, ?_⟩
  · intro cid send last
    rfl
  · intro cid h
    exact TemplateErrorV2.noConfusion h
  · intro e h
    simp [map_build_error, h]
  · intro e h
    simp [map_build_error, h]

/-- Witness for C7: a concrete dry-run trigger attempt yields
`TriggerDisabled`, and the boundary wraps a `TriggerDisabled` build error
with the actionable message. -/
theorem trigger_disabled_policy_witness :
    resolveChainSource "chain1"
      (build_request_http_engine (execute_trigger_dependencies true))
      true none none = .error .TriggerDisabled ∧
    map_build_error { contexts := [], root := .TriggerDisabled }
      = { contexts := ["Triggered requests are disabled with `--dry-run`"],
          root := .TriggerDisabled } := by
  constructor
  · exact trigger_disabled_policy.1 "chain1" none none
  · exact trigger_disabled_policy.2.2.1
      { contexts := [], root := .TriggerDisabled } (by decide)

/-- Helper: a placeholder match consumes at least the two delimiters on each
side, so the remaining input is strictly shorter. -/
theorem tryPlaceholder_length {l : List Char} {k : String} {rest : List Char}
    (h : tryPlaceholder l = some (k, rest)) : rest.length < l.length := by
  match l with
  | [] => simp [tryPlaceholder] at h
  | [c] => simp [tryPlaceholder] at h
  | c1 :: c2 :: t =>
    simp only [tryPlaceholder] at h
    split at h
    · split at h
      · simp at h
      · split at h
        · rename_i d1 d2 rest2 heq
          split at h
          · simp only [Option.some.injEq, Prod.mk.injEq] at h
            obtain ⟨-, hrest⟩ := h
            subst hrest
            have h1 : rest2.length + 2
                = (((t.dropWhile Char.isWhitespace).dropWhile
                    isKeyChar).dropWhile Char.isWhitespace).length := by
              rw [heq]
              simp only [List.length_cons]
            have h2 : (((t.dropWhile Char.isWhitespace).dropWhile
                isKeyChar).dropWhile Char.isWhitespace).length ≤ t.length :=
              le_trans (List.dropWhile_sublist _).length_le
                (le_trans (List.dropWhile_sublist _).length_le
                  (List.dropWhile_sublist _).length_le)
            simp only [List.length_cons]
            omega
          · simp at h
        · simp at h
    · simp at h

/-- Helper for C4: with adequate fuel, the renderer fails with `e` exactly
when `e` is the first parse-or-resolution error among the placeholder keys
in left-to-right scan order. -/
theorem renderFuel_error_iff (ctx : TemplateContext) :
    ∀ (fuel : Nat) (l : List Char), l.length ≤ fuel →
      ∀ e, (renderFuel ctx fuel l = .error e ↔
        firstKeyError ctx (keysOfFuel fuel l) = some e) := by
  intro fuel
  induction fuel with
  | zero =>
    intro l hl e
    have hnil : l = [] := List.length_eq_zero.mp (Nat.le_zero.mp hl)
    subst hnil
    simp [renderFuel, keysOfFuel, firstKeyError]
  | succ n ih =>
    intro l hl e
    cases htry : tryPlaceholder l with
    | some kr =>
      obtain ⟨key, rest⟩ := kr
      have hrl : rest.length ≤ n :=
        Nat.lt_succ_iff.mp (lt_of_lt_of_le (tryPlaceholder_length htry) hl)
      simp only [renderFuel, keysOfFuel, htry, firstKeyError,
        List.findSome?_cons]
      cases hres : resolveKey ctx key with
      | error e' =>
        simp [hres]
      | ok v =>
        simp only [hres]
        have hih := ih rest hrl e
        simp only [firstKeyError] at hih
        cases hrec : renderFuel ctx n rest with
        | error e' =>
          rw [hrec] at hih
          simp only [hrec]
          exact hih
        | ok tail =>
          rw [hrec] at hih
          simp only [hrec]
          rw [← hih]
          simp
    | none =>
      cases l with
      | nil => simp [renderFuel, keysOfFuel, htry, firstKeyError]
      | cons c rest =>
        have hrl : rest.length ≤ n := by
          simp only [List.length_cons] at hl
          omega
        simp only [renderFuel, keysOfFuel, htry, firstKeyError]
        have hih := ih rest hrl e
        simp only [firstKeyError] at hih
        cases hrec : renderFuel ctx n rest with
        | error e' =>
          rw [hrec] at hih
          simp only [hrec]
          exact hih
        | ok tail =>
          rw [hrec] at hih
          simp only [hrec]
          rw [← hih]
          simp

/-- Helper for C8: with adequate fuel, an input in which the scan finds no
placeholder renders to itself. -/
theorem renderFuel_no_keys (ctx : TemplateContext) :
    ∀ (fuel : Nat) (l : List Char), l.length ≤ fuel →
      keysOfFuel fuel l = [] → renderFuel ctx fuel l = .ok (String.mk l) := by
  intro fuel
  induction fuel with
  | zero =>
    intro l hl _
    have hnil : l = [] := List.length_eq_zero.mp (Nat.le_zero.mp hl)
    subst hnil
    rfl
  | succ n ih =>
    intro l hl hkeys
    cases htry : tryPlaceholder l with
    | some kr =>
      obtain ⟨key, rest⟩ := kr
      simp only [keysOfFuel, htry] at hkeys
      exact absurd hkeys (List.cons_ne_nil _ _)
    | none =>
      cases l with
      | nil => rfl
      | cons c rest =>
        have hrl : rest.length ≤ n := by
          simp only [List.length_cons] at hl
          omega
        simp only [keysOfFuel, htry] at hkeys
        have hrec := ih rest hrl hkeys
        simp only [renderFuel, htry, hrec]
        rfl

/-- C4: rendering evaluates placeholders strictly left to right — the render
fails with error `e` exactly when `e` is the error of the first failing key
in scan order, so the first error aborts the whole call and (the result
being either one full string or one error) no partly rendered string is
ever returned on failure. -/
theorem render_first_error_aborts :
    ∀ (ctx : TemplateContext) (s : String) (e : TemplateError String),
      render_borrow ctx s = .error e ↔
        firstKeyError ctx (keysOf s) = some e := by
  intro ctx s e
  exact renderFuel_error_iff ctx s.toList.length s.toList le_rfl e

/-- Witness for C4: an unknown field in the only placeholder aborts the
render with exactly that field's error. -/
theorem render_first_error_aborts_witness :
    render_borrow emptyCtx "\x7b\x7bonion_id\x7d\x7d"
      = .error (.FieldUnknown "onion_id") :=
  (render_first_error_aborts emptyCtx "\x7b\x7bonion_id\x7d\x7d"
    (.FieldUnknown "onion_id")).mpr (by decide)

/-- C8: every input in which the scan finds no well-formed placeholder —
the empty string, strings without braces, an unterminated opening delimiter,
or brace usages whose inner text does not fit the placeholder pattern —
renders to itself unchanged, in any context. -/
theorem render_no_placeholder_identity :
    ∀ (ctx : TemplateContext) (s : String),
      keysOf s = [] → render_borrow ctx s = .ok s := by
  intro ctx s h
  exact renderFuel_no_keys ctx s.toList.length s.toList le_rfl h

/-- Witness for C8: the empty string, a plain string, an unterminated
opening delimiter and a brace pair with ill-formed inner text all render to
themselves. -/
theorem render_no_placeholder_identity_witness :
    render_borrow emptyCtx "" = .ok "" ∧
    render_borrow emptyCtx "plain" = .ok "plain" ∧
    render_borrow emptyCtx "\x7b\x7bunterminated"
      = .ok "\x7b\x7bunterminated" ∧
    render_borrow emptyCtx "\x7b\x7b bad key! \x7d\x7d"
      = .ok "\x7b\x7b bad key! \x7d\x7d" :=
  ⟨render_no_placeholder_identity emptyCtx "" (by decide),
   render_no_placeholder_identity emptyCtx "plain" (by decide),
   render_no_placeholder_identity emptyCtx "\x7b\x7bunterminated" (by decide),
   render_no_placeholder_identity emptyCtx "\x7b\x7b bad key! \x7d\x7d"
     (by decide)⟩

end Slumber
